import Mathlib

/-!
Shallow embedding of two components of the nuclide repository:

* `DiagnosticsProviderBase` (src/unnamed/part_000): a pub/sub adapter that owns
  one text-event subscription at a time and two message channels.
* `BlameGutter` (src/pkg/nuclide/blame-ui/lib/BlameGutter.js): a per-editor
  gutter that reconciles a line-to-decoration map against attribution
  snapshots.

Host-API effects (subscription creation/disposal, decoration and marker
creation/destruction, notifications, navigation, tracking) are recorded in an
event trace; the components' own mutable fields become record fields threaded
through state-passing functions that mirror the JavaScript statement by
statement.
-/

namespace Nuclide

/-! ## DiagnosticsProviderBase (src/unnamed/part_000) -/

/-- The four dispatcher subscription targets picked in
`_subscribeToTextEditorEvent`: `onAnyFileChange`, `onFileChange`,
`onAnyFileSave`, `onFileSave`. -/
inductive SubTarget
  | anyFileChange
  | fileChange
  | anyFileSave
  | fileSave
deriving DecidableEq, Repr

/-- Observable host-facing actions of `DiagnosticsProviderBase`. -/
inductive DEvent
  | createSub (id : Nat) (target : SubTarget)
  | disposeSub (id : Nat)
  | registerUpdate (cb : Nat)
  | hookUpdate (cb : Nat)
  | registerInvalidate (cb : Nat)
  | hookInvalidate (cb : Nat)
deriving DecidableEq, Repr

/-- State of a `DiagnosticsProviderBase` instance.  Subscription handles are
identified by the `Nat` drawn from `nextSubId` at creation time;
`currentEventSubscription` is the `_currentEventSubscription` field.  The Atom
`Emitter` and `CompositeDisposable` are host objects whose `dispose` is
internally guarded, so they are carried as disposed-flags. -/
structure DPB where
  allGrammarScopes : Bool
  currentEventSubscription : Option Nat
  nextSubId : Nat
  emitterDisposed : Bool
  disposablesDisposed : Bool
  events : List DEvent
deriving DecidableEq, Repr

/-- `_disposeEventSubscription`: if a subscription is current, dispose it and
null the field; otherwise do nothing. -/
def disposeEventSubscription (s : DPB) : DPB :=
  match s.currentEventSubscription with
  | some id =>
      { s with currentEventSubscription := none
               events := s.events ++ [DEvent.disposeSub id] }
  | none => s

/-- The dispatcher method chosen by `_subscribeToTextEditorEvent` from
`shouldRunOnTheFly` and `_allGrammarScopes`. -/
def subTargetFor (shouldRunOnTheFly allGrammarScopes : Bool) : SubTarget :=
  if shouldRunOnTheFly then
    if allGrammarScopes then SubTarget.anyFileChange else SubTarget.fileChange
  else
    if allGrammarScopes then SubTarget.anyFileSave else SubTarget.fileSave

/-- `_subscribeToTextEditorEvent`: disposes the current subscription first,
then subscribes to the appropriate dispatcher event and stores the handle. -/
def subscribeToTextEditorEvent (shouldRunOnTheFly : Bool) (s : DPB) : DPB :=
  let s := disposeEventSubscription s
  { s with currentEventSubscription := some s.nextSubId
           nextSubId := s.nextSubId + 1
           events := s.events ++
             [DEvent.createSub s.nextSubId
               (subTargetFor shouldRunOnTheFly s.allGrammarScopes)] }

/-- The constructor: fields initialised, then
`_subscribeToTextEditorEvent(Boolean(options.shouldRunOnTheFly))`. -/
def constructDPB (allGrammars shouldRunOnTheFly : Bool) : DPB :=
  subscribeToTextEditorEvent shouldRunOnTheFly
    { allGrammarScopes := allGrammars
      currentEventSubscription := none
      nextSubId := 0
      emitterDisposed := false
      disposablesDisposed := false
      events := [] }

/-- `setRunOnTheFly(runOnTheFly)` delegates to `_subscribeToTextEditorEvent`. -/
def setRunOnTheFly (runOnTheFly : Bool) (s : DPB) : DPB :=
  subscribeToTextEditorEvent runOnTheFly s

/-- `dispose()`: disposes the emitter and the composite disposable (both
idempotent host objects), then `_disposeEventSubscription()`. -/
def dispose (s : DPB) : DPB :=
  disposeEventSubscription
    { s with emitterDisposed := true, disposablesDisposed := true }

/-- `onMessageUpdate(callback)`: registers the callback on the update channel
via `emitter.on`, then invokes `_newUpdateSubscriberCallback(callback)`. -/
def onMessageUpdate (cb : Nat) (s : DPB) : DPB :=
  { s with events := s.events ++ [DEvent.registerUpdate cb, DEvent.hookUpdate cb] }

/-- `onMessageInvalidation(callback)`: registers the callback on the
invalidate channel, then invokes `_newInvalidateSubscriberCallback(callback)`. -/
def onMessageInvalidation (cb : Nat) (s : DPB) : DPB :=
  { s with events := s.events ++ [DEvent.registerInvalidate cb, DEvent.hookInvalidate cb] }

/-- A sequence of `setRunOnTheFly` calls. -/
def applyModeCalls (bs : List Bool) (s : DPB) : DPB :=
  bs.foldl (fun s b => setRunOnTheFly b s) s

/-- A sequence of `onMessageUpdate` registrations. -/
def applyUpdateRegs (cbs : List Nat) (s : DPB) : DPB :=
  cbs.foldl (fun s cb => onMessageUpdate cb s) s

/-- The subscription ids created and not yet disposed, after the trace `es`,
in creation order. -/
def activeIdsAux (acc : List Nat) : List DEvent → List Nat
  | [] => acc
  | DEvent.createSub id _ :: rest => activeIdsAux (acc ++ [id]) rest
  | DEvent.disposeSub id :: rest => activeIdsAux (acc.filter (fun x => x ≠ id)) rest
  | _ :: rest => activeIdsAux acc rest

def activeIds (es : List DEvent) : List Nat := activeIdsAux [] es

/-- Number of update-channel lifecycle-hook invocations in a trace. -/
def countHookUpdate (es : List DEvent) : Nat :=
  es.countP (fun e => match e with | DEvent.hookUpdate _ => true | _ => false)

/-- Number of invalidate-channel lifecycle-hook invocations in a trace. -/
def countHookInvalidate (es : List DEvent) : Nat :=
  es.countP (fun e => match e with | DEvent.hookInvalidate _ => true | _ => false)

/-- The single-active-subscription invariant of `DiagnosticsProviderBase`:
the trace's undisposed subscriptions are exactly the stored current handle,
and no prefix of the trace ever has two undisposed subscriptions. -/
def subInvariant (s : DPB) : Prop :=
  (match s.currentEventSubscription with
   | some id => activeIds s.events = [id]
   | none => activeIds s.events = []) ∧
  ∀ n, (activeIds (s.events.take n)).length ≤ 1

/-! ## BlameGutter (src/pkg/nuclide/blame-ui/lib/BlameGutter.js) -/

/-- One entry of a `BlameForEditor` snapshot: `{author: string,
changeset: ?string}`. -/
structure BlameInfo where
  author : String
  changeset : Option String
deriving DecidableEq, Repr

/-- JavaScript truthiness of the `changeset` field: `undefined`/`null` and the
empty string are falsy. -/
def changesetTruthy : Option String → Bool
  | none => false
  | some c => !c.isEmpty

/-- A `BlameForEditor` is a JS `Map<number, BlameInfo>`; iteration yields its
entries in insertion order with unique keys, so it is carried as an
association list. -/
def BlameForEditor : Type := List (Nat × BlameInfo)

/-- Observable host-facing actions of a `BlameGutter`. -/
inductive GEvent
  | addInfo
  | createDecoration (line id : Nat)
  | setProperties (id : Nat)
  | destroyMarker (id : Nat)
  | setWidthCh (characters : Nat)
  | gutterDestroy
  | addWarning (message : String) (dismissable : Bool)
  | openExternal (url : String)
  | trackClick (editorPath : Option String) (url : Option String)
deriving DecidableEq, Repr

/-- State of a `BlameGutter` instance.  Decoration handles are identified by
the `Nat` drawn from `nextDecorationId` when `decorateMarker` runs;
`lineToDecoration` is `_bufferLineToDecoration` as an insertion-ordered
association list (the JS `Map`). -/
structure GutterState where
  isDestroyed : Bool
  lineToDecoration : List (Nat × Nat)
  nextDecorationId : Nat
  loadingSpinnerIsPending : Bool
  loadingSpinnerDivPresent : Bool
  events : List GEvent
deriving DecidableEq, Repr

/-- `Map.get`: the value stored under `k`, if any. -/
def mapGet (k : Nat) : List (Nat × Nat) → Option Nat
  | [] => none
  | (k2, v) :: rest => if k = k2 then some v else mapGet k rest

/-- The state right after the constructor: empty decoration map, not
destroyed, fetch about to be issued. -/
def initialGutter : GutterState :=
  { isDestroyed := false
    lineToDecoration := []
    nextDecorationId := 0
    loadingSpinnerIsPending := false
    loadingSpinnerDivPresent := false
    events := [] }

/-- `_cleanUpLoadingSpinner`: cancel a pending timer and remove a visible
spinner element, each guarded. -/
def cleanUpLoadingSpinner (s : GutterState) : GutterState :=
  let s := if s.loadingSpinnerIsPending then { s with loadingSpinnerIsPending := false } else s
  if s.loadingSpinnerDivPresent then { s with loadingSpinnerDivPresent := false } else s

/-- The length the entry contributes in `_updateBlame`'s first loop:
`author.length`, plus `changeset.length + 1` when the changeset is truthy. -/
def blameLength (info : BlameInfo) : Nat :=
  info.author.length +
    (match info.changeset with
     | some c => if c.isEmpty then 0 else c.length + 1
     | none => 0)

/-- The `longestBlame` accumulation of `_updateBlame`: a fold keeping the
largest `blameLength` seen, starting from 0. -/
def longestBlameFrom (acc : Nat) : List (Nat × BlameInfo) → Nat
  | [] => acc
  | (_, info) :: rest =>
      longestBlameFrom (if blameLength info > acc then blameLength info else acc) rest

def longestBlame (blame : List (Nat × BlameInfo)) : Nat := longestBlameFrom 0 blame

/-- `_setBlameLine`: update the existing decoration's properties in place, or
mark the line, decorate the marker, and record the new decoration. -/
def setBlameLine (line : Nat) (s : GutterState) : GutterState :=
  match mapGet line s.lineToDecoration with
  | some d => { s with events := s.events ++ [GEvent.setProperties d] }
  | none =>
      { s with lineToDecoration := s.lineToDecoration ++ [(line, s.nextDecorationId)]
               nextDecorationId := s.nextDecorationId + 1
               events := s.events ++ [GEvent.createDecoration line s.nextDecorationId] }

/-- `_removeBlameLine`: destroy the line's decoration through its marker and
drop the map entry; no-op when the line has no decoration. -/
def removeBlameLine (line : Nat) (s : GutterState) : GutterState :=
  match mapGet line s.lineToDecoration with
  | none => s
  | some d =>
      { s with lineToDecoration := s.lineToDecoration.filter (fun p => p.1 ≠ line)
               events := s.events ++ [GEvent.destroyMarker d] }

/-- The second loop of `_updateBlame`: `_setBlameLine` for every snapshot
entry while deleting each line from the previous-lines set. -/
def setLoop : List (Nat × BlameInfo) → GutterState × List Nat → GutterState × List Nat
  | [], acc => acc
  | (line, _) :: rest, (s, prev) =>
      setLoop rest (setBlameLine line s, prev.filter (fun x => x ≠ line))

/-- The third loop of `_updateBlame`: `_removeBlameLine` for every line left
in the previous-lines set. -/
def removeLoop : List Nat → GutterState → GutterState
  | [], s => s
  | line :: rest, s => removeLoop rest (removeBlameLine line s)

/-- The diffing core of `_updateBlame`: snapshot the previous lines
(`new Set(this._bufferLineToDecoration.keys())`), run the set loop over the
snapshot, then the remove loop over the lines left in the set. -/
def reconcile (blame : List (Nat × BlameInfo)) (s : GutterState) : GutterState :=
  let r := setLoop blame (s, s.lineToDecoration.map Prod.fst)
  removeLoop r.2 r.1

/-- `_updateBlame(blameForEditor)`: empty-snapshot notice, `longestBlame`
pass, the diffing core, then the gutter width update in character units. -/
def updateBlame (blame : List (Nat × BlameInfo)) (s : GutterState) : GutterState :=
  let s := if blame.length = 0 then { s with events := s.events ++ [GEvent.addInfo] } else s
  let s := reconcile blame s
  { s with events := s.events ++ [GEvent.setWidthCh (longestBlame blame)] }

/-- The continuation of `_fetchAndDisplayBlame` running when
`getBlameForEditor` resolves: bail out if destroyed, otherwise clean up the
spinner and reconcile. -/
def fetchContinuation (blame : List (Nat × BlameInfo)) (s : GutterState) : GutterState :=
  if s.isDestroyed then s
  else updateBlame blame (cleanUpLoadingSpinner s)

/-- `destroy()`: set the flag, clean up the spinner, destroy the gutter
unless the editor is already destroyed, then destroy every decoration's
marker.  `editorIsDestroyed` is the host's `editor.isDestroyed()`. -/
def destroy (editorIsDestroyed : Bool) (s : GutterState) : GutterState :=
  let s := { s with isDestroyed := true }
  let s := cleanUpLoadingSpinner s
  let s := if editorIsDestroyed then s else { s with events := s.events ++ [GEvent.gutterDestroy] }
  { s with events := s.events ++ s.lineToDecoration.map (fun p => GEvent.destroyMarker p.2) }

/-- The string assigned to `gutterView.style.width` by
`_updateGutterWidthToCharacterLength`. -/
def chWidthString (characters : Nat) : String := toString characters ++ "ch"

/-- The non-breaking-space count of `_createGutterItem`, as the signed value
the subtraction produces in JavaScript. -/
def gutterItemNumSpaces (info : BlameInfo) (longest : Nat) (c : String) : Int :=
  (longest : Int) - (info.author.length : Int) - (c.length : Int)

/-- The environment of one `_onClick` invocation: whether `e.target` is
present, the target's `hgChangeset` data attribute, the value
`getUrlForRevision` resolves to, and `editor.getPath()`. -/
structure ClickEnv where
  targetPresent : Bool
  changeset : Option String
  resolvedUrl : Option String
  editorPath : Option String

/-- JavaScript truthiness of the resolved url string. -/
def urlTruthy : Option String → Bool
  | none => false
  | some u => !u.isEmpty

/-- `_onClick`: guard on target and changeset, navigate or warn depending on
the resolved url, then emit the tracking event. -/
def onClick (env : ClickEnv) : List GEvent :=
  if !env.targetPresent then []
  else
    match env.changeset with
    | none => []
    | some c =>
        if c.isEmpty then []
        else
          (match env.resolvedUrl with
           | some url =>
               if url.isEmpty then
                 [GEvent.addWarning ("No URL found for " ++ c ++ ".") true]
               else [GEvent.openExternal url]
           | none => [GEvent.addWarning ("No URL found for " ++ c ++ ".") true]) ++
          [GEvent.trackClick env.editorPath env.resolvedUrl]

/-- Number of informational notices in a trace. -/
def countAddInfo (es : List GEvent) : Nat :=
  es.countP (fun e => match e with | GEvent.addInfo => true | _ => false)

/-- Number of `gutterDestroy` host calls in a trace. -/
def countGutterDestroy (es : List GEvent) : Nat :=
  es.countP (fun e => match e with | GEvent.gutterDestroy => true | _ => false)

/-- Number of `marker.destroy()` calls on decoration `d` in a trace. -/
def countDestroyMarker (d : Nat) (es : List GEvent) : Nat :=
  es.countP (fun e => e = GEvent.destroyMarker d)

/-- Whether some decoration was created for `line` in the trace. -/
def createdLine (line : Nat) (es : List GEvent) : Bool :=
  es.any (fun e => match e with | GEvent.createDecoration l _ => l = line | _ => false)

/-- Example attribution snapshot covering lines 0 and 1. -/
def S1ex : List (Nat × BlameInfo) := [(0, ⟨"a", none⟩), (1, ⟨"b", none⟩)]

/-- Example follow-up snapshot covering lines 1 and 2. -/
def S2ex : List (Nat × BlameInfo) := [(1, ⟨"b", none⟩), (2, ⟨"c", none⟩)]

/-! ## Association-list map lemmas -/

theorem mapGet_append_left {k v : Nat} {m m' : List (Nat × Nat)}
    (h : mapGet k m = some v) : mapGet k (m ++ m') = some v := by
  induction m with
  | nil => simp [mapGet] at h
  | cons p rest ih =>
      simp only [mapGet, List.cons_append] at h ⊢
      split at h
      · simp [*]
      · simp only [*, if_false]
        exact ih h

theorem mapGet_eq_none_iff {k : Nat} {m : List (Nat × Nat)} :
    mapGet k m = none ↔ ∀ p ∈ m, p.1 ≠ k := by
  induction m with
  | nil => simp [mapGet]
  | cons p rest ih =>
      simp only [mapGet, List.mem_cons]
      constructor
      · intro h q hq
        rcases hq with hq | hq
        · subst hq
          intro hk
          simp [hk.symm] at h
        · split at h
          · exact absurd h (by simp)
          · exact (ih.mp h) q hq
      · intro h
        have hne : k ≠ p.1 := fun hk => (h p (Or.inl rfl)) hk.symm
        simp only [hne, if_false]
        exact ih.mpr fun q hq => h q (Or.inr hq)

theorem mapGet_ne_none_iff_mem {k : Nat} {m : List (Nat × Nat)} :
    mapGet k m ≠ none ↔ k ∈ m.map Prod.fst := by
  rw [Ne, mapGet_eq_none_iff]
  simp only [List.mem_map]
  constructor
  · intro h
    by_contra hk
    exact h fun p hp hpk => hk ⟨p, hp, hpk⟩
  · rintro ⟨p, hp, hpk⟩ h
    exact (h p hp) hpk

theorem mapGet_eq_none_iff_not_mem {k : Nat} {m : List (Nat × Nat)} :
    mapGet k m = none ↔ k ∉ m.map Prod.fst := by
  rw [← mapGet_ne_none_iff_mem]
  exact not_not.symm

theorem mapGet_append_single_ne {k l v : Nat} {m : List (Nat × Nat)} (h : k ≠ l) :
    mapGet k (m ++ [(l, v)]) = mapGet k m := by
  induction m with
  | nil => simp [mapGet, h]
  | cons p rest ih =>
      simp only [mapGet, List.cons_append]
      split <;> simp [ih]

theorem mapGet_filter_ne {k l : Nat} {m : List (Nat × Nat)} :
    mapGet k (m.filter (fun p => p.1 ≠ l)) =
      if k = l then none else mapGet k m := by
  induction m with
  | nil => simp [mapGet]
  | cons p rest ih =>
      simp only [ne_eq, decide_not] at ih ⊢
      by_cases hp : p.1 = l
      · by_cases hk : k = l
        · simp only [hk] at ih
          simp [List.filter_cons, mapGet, hp, hk, ih]
        · have hkp : ¬ k = p.1 := by rw [hp]; exact hk
          simp [List.filter_cons, mapGet, hp, hk, hkp, ih]
      · by_cases hk : k = p.1
        · have hkl : ¬ k = l := by rw [hk]; exact hp
          simp [List.filter_cons, mapGet, hp, hk, hkl]
        · simp [List.filter_cons, mapGet, hp, hk, ih]

/-! ## `_setBlameLine` and the set loop -/

theorem setBlameLine_preserves {k v line : Nat} {s : GutterState}
    (h : mapGet k s.lineToDecoration = some v) :
    mapGet k (setBlameLine line s).lineToDecoration = some v := by
  unfold setBlameLine
  cases hl : mapGet line s.lineToDecoration with
  | some d => simpa using h
  | none => simpa using mapGet_append_left h

theorem setBlameLine_mem_keys {k line : Nat} {s : GutterState} :
    k ∈ (setBlameLine line s).lineToDecoration.map Prod.fst ↔
      k ∈ s.lineToDecoration.map Prod.fst ∨ k = line := by
  unfold setBlameLine
  cases hl : mapGet line s.lineToDecoration with
  | some d =>
      simp only
      constructor
      · exact Or.inl
      · rintro (h | h)
        · exact h
        · subst h
          exact mapGet_ne_none_iff_mem.mp (by simp [hl])
  | none => simp

theorem setLoop_preserves {k v : Nat} {blame : List (Nat × BlameInfo)}
    {s : GutterState} {prev : List Nat}
    (h : mapGet k s.lineToDecoration = some v) :
    mapGet k (setLoop blame (s, prev)).1.lineToDecoration = some v := by
  induction blame generalizing s prev with
  | nil => exact h
  | cons p rest ih => exact ih (setBlameLine_preserves h)

theorem setLoop_mem_keys {k : Nat} {blame : List (Nat × BlameInfo)}
    {s : GutterState} {prev : List Nat} :
    k ∈ (setLoop blame (s, prev)).1.lineToDecoration.map Prod.fst ↔
      k ∈ s.lineToDecoration.map Prod.fst ∨ k ∈ blame.map Prod.fst := by
  induction blame generalizing s prev with
  | nil => simp [setLoop]
  | cons p rest ih =>
      rcases p with ⟨line, info⟩
      simp only [setLoop, ih, setBlameLine_mem_keys, List.map_cons, List.mem_cons]
      tauto

theorem setLoop_prev_mem {k : Nat} {blame : List (Nat × BlameInfo)}
    {s : GutterState} {prev : List Nat} :
    k ∈ (setLoop blame (s, prev)).2 ↔
      k ∈ prev ∧ k ∉ blame.map Prod.fst := by
  induction blame generalizing s prev with
  | nil => simp [setLoop]
  | cons p rest ih =>
      rcases p with ⟨line, info⟩
      simp only [setLoop, ih, List.mem_filter, List.map_cons, List.mem_cons]
      constructor
      · rintro ⟨⟨hk, hne⟩, hr⟩
        refine ⟨hk, ?_⟩
        simp only [decide_eq_true_eq] at hne
        tauto
      · rintro ⟨hk, hnot⟩
        refine ⟨⟨hk, ?_⟩, fun hr => hnot (Or.inr hr)⟩
        simp only [decide_eq_true_eq]
        exact fun h => hnot (Or.inl h)

theorem setLoop_prev_nodup {blame : List (Nat × BlameInfo)}
    {s : GutterState} {prev : List Nat} (h : prev.Nodup) :
    (setLoop blame (s, prev)).2.Nodup := by
  induction blame generalizing s prev with
  | nil => exact h
  | cons p rest ih =>
      rcases p with ⟨line, info⟩
      exact ih (h.filter _)

theorem setLoop_keys_nodup {blame : List (Nat × BlameInfo)}
    {s : GutterState} {prev : List Nat}
    (h : (s.lineToDecoration.map Prod.fst).Nodup) :
    ((setLoop blame (s, prev)).1.lineToDecoration.map Prod.fst).Nodup := by
  induction blame generalizing s prev with
  | nil => exact h
  | cons p rest ih =>
      rcases p with ⟨line, info⟩
      refine ih ?_
      unfold setBlameLine
      cases hl : mapGet line s.lineToDecoration with
      | some d => exact h
      | none =>
          simp only [List.map_append, List.map_cons, List.map_nil]
          have hline : line ∉ s.lineToDecoration.map Prod.fst := by
            intro hmem
            exact (mapGet_ne_none_iff_mem.mpr hmem) hl
          simp [List.nodup_append, h, hline]

/-! ## `_removeBlameLine` and the remove loop -/

theorem removeBlameLine_mapGet {k line : Nat} {s : GutterState} :
    mapGet k (removeBlameLine line s).lineToDecoration =
      if k = line then none else mapGet k s.lineToDecoration := by
  unfold removeBlameLine
  cases hl : mapGet line s.lineToDecoration with
  | none =>
      by_cases hk : k = line
      · simp [hk, hl]
      · simp [hk]
  | some d =>
      simpa using mapGet_filter_ne (k := k) (l := line) (m := s.lineToDecoration)

theorem removeLoop_mapGet {k : Nat} {L : List Nat} {s : GutterState} :
    mapGet k (removeLoop L s).lineToDecoration =
      if k ∈ L then none else mapGet k s.lineToDecoration := by
  induction L generalizing s with
  | nil => simp [removeLoop]
  | cons l rest ih =>
      simp only [removeLoop, ih, removeBlameLine_mapGet, List.mem_cons]
      by_cases hk : k ∈ rest
      · simp [hk]
      · by_cases hkl : k = l
        · simp [hk, hkl]
        · simp [hk, hkl]

theorem removeBlameLine_events_mono {e : GEvent} {line : Nat} {s : GutterState}
    (h : e ∈ s.events) : e ∈ (removeBlameLine line s).events := by
  unfold removeBlameLine
  cases hl : mapGet line s.lineToDecoration with
  | none => exact h
  | some d => simp [h]

theorem removeLoop_events_mono {e : GEvent} {L : List Nat} {s : GutterState}
    (h : e ∈ s.events) : e ∈ (removeLoop L s).events := by
  induction L generalizing s with
  | nil => exact h
  | cons l rest ih => exact ih (removeBlameLine_events_mono h)

theorem removeLoop_destroys {L : List Nat} {s : GutterState} (hnd : L.Nodup) :
    ∀ l ∈ L, ∀ d, mapGet l s.lineToDecoration = some d →
      GEvent.destroyMarker d ∈ (removeLoop L s).events := by
  induction L generalizing s with
  | nil => intro l hl; simp at hl
  | cons a rest ih =>
      intro l hl d hd
      simp only [removeLoop]
      rcases List.mem_cons.mp hl with h | h
      · subst h
        have hmem : GEvent.destroyMarker d ∈ (removeBlameLine l s).events := by
          unfold removeBlameLine
          simp [hd]
        exact removeLoop_events_mono hmem
      · have hla : l ≠ a := by
          rintro rfl
          exact (List.nodup_cons.mp hnd).1 h
        refine ih (List.nodup_cons.mp hnd).2 l h d ?_
        rw [removeBlameLine_mapGet]
        simp [hla, hd]

/-! ## Event-shape lemmas for the traces of `_updateBlame` -/

theorem createdLine_append {line : Nat} {es es' : List GEvent} :
    createdLine line (es ++ es') = (createdLine line es || createdLine line es') := by
  simp [createdLine, List.any_append]

theorem setBlameLine_map_of_some {line d : Nat} {s : GutterState}
    (h : mapGet line s.lineToDecoration = some d) :
    (setBlameLine line s).lineToDecoration = s.lineToDecoration := by
  unfold setBlameLine
  simp [h]

theorem setBlameLine_map_of_none {line : Nat} {s : GutterState}
    (h : mapGet line s.lineToDecoration = none) :
    (setBlameLine line s).lineToDecoration =
      s.lineToDecoration ++ [(line, s.nextDecorationId)] := by
  unfold setBlameLine
  simp [h]

theorem mapGet_append_single_self {l v : Nat} {m : List (Nat × Nat)}
    (h : mapGet l m = none) : mapGet l (m ++ [(l, v)]) = some v := by
  induction m with
  | nil => simp [mapGet]
  | cons p rest ih =>
      simp only [mapGet, List.cons_append] at h ⊢
      by_cases hp : l = p.1
      · simp [hp] at h
      · simp only [hp, if_false]
        exact ih (by simpa [hp] using h)

theorem setBlameLine_createdLine {line k : Nat} {s : GutterState} :
    createdLine k (setBlameLine line s).events = true ↔
      createdLine k s.events = true ∨
        (k = line ∧ mapGet line s.lineToDecoration = none) := by
  unfold setBlameLine
  cases hl : mapGet line s.lineToDecoration with
  | some d =>
      simp only [createdLine_append, Bool.or_eq_true]
      constructor
      · rintro (h | h)
        · exact Or.inl h
        · simp [createdLine] at h
      · rintro (h | ⟨-, h⟩)
        · exact Or.inl h
        · cases h
  | none =>
      simp only [createdLine_append, Bool.or_eq_true]
      constructor
      · rintro (h | h)
        · exact Or.inl h
        · simp only [createdLine, List.any_cons, List.any_nil, Bool.or_false,
            decide_eq_true_eq] at h
          exact Or.inr ⟨h.symm, by trivial⟩
      · rintro (h | ⟨h, -⟩)
        · exact Or.inl h
        · subst h
          refine Or.inr ?_
          simp [createdLine]

theorem setLoop_createdLine {k : Nat} {blame : List (Nat × BlameInfo)}
    {s : GutterState} {prev : List Nat} :
    createdLine k (setLoop blame (s, prev)).1.events = true ↔
      createdLine k s.events = true ∨
        (k ∈ blame.map Prod.fst ∧ mapGet k s.lineToDecoration = none) := by
  induction blame generalizing s prev with
  | nil => simp [setLoop]
  | cons p rest ih =>
      rcases p with ⟨line, info⟩
      rw [setLoop, ih, setBlameLine_createdLine]
      simp only [List.map_cons, List.mem_cons]
      cases hl : mapGet line s.lineToDecoration with
      | some d =>
          rw [setBlameLine_map_of_some hl]
          constructor
          · rintro ((h | ⟨rfl, h⟩) | ⟨hm, hn⟩)
            · exact Or.inl h
            · cases h
            · exact Or.inr ⟨Or.inr hm, hn⟩
          · rintro (h | ⟨hm, hn⟩)
            · exact Or.inl (Or.inl h)
            · rcases hm with rfl | hm
              · rw [hl] at hn
                cases hn
              · exact Or.inr ⟨hm, hn⟩
      | none =>
          rw [setBlameLine_map_of_none hl]
          by_cases hk : k = line
          · subst hk
            rw [mapGet_append_single_self hl]
            constructor
            · rintro ((h | -) | ⟨-, hn⟩)
              · exact Or.inl h
              · exact Or.inr ⟨Or.inl rfl, hl⟩
              · cases hn
            · rintro -
              exact Or.inl (Or.inr ⟨rfl, rfl⟩)
          · rw [mapGet_append_single_ne hk]
            constructor
            · rintro ((h | ⟨h, -⟩) | ⟨hm, hn⟩)
              · exact Or.inl h
              · exact absurd h hk
              · exact Or.inr ⟨Or.inr hm, hn⟩
            · rintro (h | ⟨hm, hn⟩)
              · exact Or.inl (Or.inl h)
              · rcases hm with h | hm
                · exact absurd h hk
                · exact Or.inr ⟨hm, hn⟩

theorem removeBlameLine_createdLine {k line : Nat} {s : GutterState} :
    createdLine k (removeBlameLine line s).events = createdLine k s.events := by
  unfold removeBlameLine
  cases hl : mapGet line s.lineToDecoration with
  | none => rfl
  | some d => simp [createdLine_append, createdLine]

theorem removeLoop_createdLine {k : Nat} {L : List Nat} {s : GutterState} :
    createdLine k (removeLoop L s).events = createdLine k s.events := by
  induction L generalizing s with
  | nil => rfl
  | cons l rest ih => rw [removeLoop, ih, removeBlameLine_createdLine]

theorem setBlameLine_events_mono {e : GEvent} {line : Nat} {s : GutterState}
    (h : e ∈ s.events) : e ∈ (setBlameLine line s).events := by
  unfold setBlameLine
  cases hl : mapGet line s.lineToDecoration with
  | some d => simp [h]
  | none => simp [h]

theorem setLoop_events_mono {e : GEvent} {blame : List (Nat × BlameInfo)}
    {s : GutterState} {prev : List Nat} (h : e ∈ s.events) :
    e ∈ (setLoop blame (s, prev)).1.events := by
  induction blame generalizing s prev with
  | nil => exact h
  | cons p rest ih =>
      rcases p with ⟨line, info⟩
      exact ih (setBlameLine_events_mono h)

theorem setLoop_setProperties {k d : Nat} {blame : List (Nat × BlameInfo)}
    {s : GutterState} {prev : List Nat} (hk : k ∈ blame.map Prod.fst)
    (hd : mapGet k s.lineToDecoration = some d) :
    GEvent.setProperties d ∈ (setLoop blame (s, prev)).1.events := by
  induction blame generalizing s prev with
  | nil => simp at hk
  | cons p rest ih =>
      rcases p with ⟨line, info⟩
      rw [setLoop]
      by_cases hkl : k = line
      · subst hkl
        have hmem : GEvent.setProperties d ∈ (setBlameLine k s).events := by
          unfold setBlameLine
          rw [hd]
          simp
        exact setLoop_events_mono hmem
      · have hk2 : k ∈ rest.map Prod.fst := by
          simp only [List.map_cons, List.mem_cons] at hk
          tauto
        exact ih hk2 (setBlameLine_preserves hd)

theorem setLoop_destroy_events {d : Nat} {blame : List (Nat × BlameInfo)}
    {s : GutterState} {prev : List Nat} :
    GEvent.destroyMarker d ∈ (setLoop blame (s, prev)).1.events ↔
      GEvent.destroyMarker d ∈ s.events := by
  induction blame generalizing s prev with
  | nil => simp [setLoop]
  | cons p rest ih =>
      rcases p with ⟨line, info⟩
      rw [setLoop, ih]
      unfold setBlameLine
      cases hl : mapGet line s.lineToDecoration with
      | some e => simp
      | none => simp

theorem setLoop_prev_nil {blame : List (Nat × BlameInfo)} {s : GutterState} :
    (setLoop blame (s, ([] : List Nat))).2 = [] := by
  induction blame generalizing s with
  | nil => rfl
  | cons p rest ih =>
      rcases p with ⟨line, info⟩
      rw [setLoop]
      simpa using ih

theorem removeBlameLine_map_sublist {line : Nat} {s : GutterState} :
    (removeBlameLine line s).lineToDecoration.Sublist s.lineToDecoration := by
  unfold removeBlameLine
  cases hl : mapGet line s.lineToDecoration with
  | none => exact List.Sublist.refl _
  | some d => simp [List.filter_sublist]

theorem removeLoop_map_sublist {L : List Nat} {s : GutterState} :
    (removeLoop L s).lineToDecoration.Sublist s.lineToDecoration := by
  induction L generalizing s with
  | nil => exact List.Sublist.refl _
  | cons l rest ih =>
      exact (ih (s := removeBlameLine l s)).trans removeBlameLine_map_sublist

theorem countAddInfo_append {es es' : List GEvent} :
    countAddInfo (es ++ es') = countAddInfo es + countAddInfo es' := by
  simp [countAddInfo, List.countP_append]

theorem setBlameLine_countAddInfo {line : Nat} {s : GutterState} :
    countAddInfo (setBlameLine line s).events = countAddInfo s.events := by
  unfold setBlameLine
  cases hl : mapGet line s.lineToDecoration with
  | some d => simp [countAddInfo_append, countAddInfo]
  | none => simp [countAddInfo_append, countAddInfo]

theorem setLoop_countAddInfo {blame : List (Nat × BlameInfo)}
    {s : GutterState} {prev : List Nat} :
    countAddInfo (setLoop blame (s, prev)).1.events = countAddInfo s.events := by
  induction blame generalizing s prev with
  | nil => rfl
  | cons p rest ih =>
      rcases p with ⟨line, info⟩
      rw [setLoop, ih, setBlameLine_countAddInfo]

theorem removeBlameLine_countAddInfo {line : Nat} {s : GutterState} :
    countAddInfo (removeBlameLine line s).events = countAddInfo s.events := by
  unfold removeBlameLine
  cases hl : mapGet line s.lineToDecoration with
  | none => rfl
  | some d => simp [countAddInfo_append, countAddInfo]

theorem removeLoop_countAddInfo {L : List Nat} {s : GutterState} :
    countAddInfo (removeLoop L s).events = countAddInfo s.events := by
  induction L generalizing s with
  | nil => rfl
  | cons l rest ih => rw [removeLoop, ih, removeBlameLine_countAddInfo]

theorem mapGet_head {p : Nat × Nat} {rest : List (Nat × Nat)} :
    mapGet p.1 (p :: rest) = some p.2 := by
  simp [mapGet]

theorem map_eq_nil_of_mapGet_none {m : List (Nat × Nat)}
    (h : ∀ k, mapGet k m = none) : m = [] := by
  cases m with
  | nil => rfl
  | cons p rest =>
      have := h p.1
      rw [mapGet_head] at this
      cases this

/-! ## Lemmas about the diffing core `reconcile` -/

theorem reconcile_mapGet_ne_none {k : Nat} {B : List (Nat × BlameInfo)}
    {s : GutterState} :
    mapGet k (reconcile B s).lineToDecoration ≠ none ↔ k ∈ B.map Prod.fst := by
  unfold reconcile
  rw [removeLoop_mapGet]
  by_cases hB : k ∈ B.map Prod.fst
  · have hprev : k ∉ (setLoop B (s, s.lineToDecoration.map Prod.fst)).2 := by
      rw [setLoop_prev_mem]
      tauto
    simp only [hprev, if_false]
    simp only [ne_eq, mapGet_ne_none_iff_mem, setLoop_mem_keys]
    tauto
  · by_cases hprev : k ∈ (setLoop B (s, s.lineToDecoration.map Prod.fst)).2
    · simp [hprev, hB]
    · simp only [hprev, if_false]
      have hs : k ∉ s.lineToDecoration.map Prod.fst := by
        intro hmem
        exact hprev (setLoop_prev_mem.mpr ⟨hmem, hB⟩)
      simp only [ne_eq, mapGet_ne_none_iff_mem, setLoop_mem_keys]
      tauto

theorem reconcile_preserves {k d : Nat} {B : List (Nat × BlameInfo)}
    {s : GutterState} (hd : mapGet k s.lineToDecoration = some d)
    (hB : k ∈ B.map Prod.fst) :
    mapGet k (reconcile B s).lineToDecoration = some d := by
  unfold reconcile
  rw [removeLoop_mapGet]
  have hprev : k ∉ (setLoop B (s, s.lineToDecoration.map Prod.fst)).2 := by
    rw [setLoop_prev_mem]
    tauto
  simp only [hprev, if_false]
  exact setLoop_preserves hd

theorem reconcile_destroys {k d : Nat} {B : List (Nat × BlameInfo)}
    {s : GutterState} (hnd : (s.lineToDecoration.map Prod.fst).Nodup)
    (hd : mapGet k s.lineToDecoration = some d)
    (hB : k ∉ B.map Prod.fst) :
    GEvent.destroyMarker d ∈ (reconcile B s).events := by
  unfold reconcile
  have hk : k ∈ s.lineToDecoration.map Prod.fst :=
    mapGet_ne_none_iff_mem.mp (by simp [hd])
  have hprev : k ∈ (setLoop B (s, s.lineToDecoration.map Prod.fst)).2 :=
    setLoop_prev_mem.mpr ⟨hk, hB⟩
  exact removeLoop_destroys (setLoop_prev_nodup hnd) k hprev d (setLoop_preserves hd)

theorem reconcile_createdLine {k : Nat} {B : List (Nat × BlameInfo)}
    {s : GutterState} :
    createdLine k (reconcile B s).events = true ↔
      createdLine k s.events = true ∨
        (k ∈ B.map Prod.fst ∧ mapGet k s.lineToDecoration = none) := by
  unfold reconcile
  rw [removeLoop_createdLine, setLoop_createdLine]

theorem reconcile_keys_nodup {B : List (Nat × BlameInfo)} {s : GutterState}
    (h : (s.lineToDecoration.map Prod.fst).Nodup) :
    ((reconcile B s).lineToDecoration.map Prod.fst).Nodup := by
  unfold reconcile
  exact ((removeLoop_map_sublist).map Prod.fst).nodup (setLoop_keys_nodup h)

theorem reconcile_countAddInfo {B : List (Nat × BlameInfo)} {s : GutterState} :
    countAddInfo (reconcile B s).events = countAddInfo s.events := by
  unfold reconcile
  rw [removeLoop_countAddInfo, setLoop_countAddInfo]

theorem reconcile_no_destroy_of_empty {d : Nat} {B : List (Nat × BlameInfo)}
    {s : GutterState} (h : s.lineToDecoration = []) :
    GEvent.destroyMarker d ∈ (reconcile B s).events ↔
      GEvent.destroyMarker d ∈ s.events := by
  unfold reconcile
  rw [h]
  simp only [List.map_nil, setLoop_prev_nil, removeLoop]
  exact setLoop_destroy_events

/-! ## Lemmas about `_updateBlame` -/

theorem updateBlame_map_eq (B : List (Nat × BlameInfo)) (s : GutterState) :
    (updateBlame B s).lineToDecoration =
      (reconcile B (if B.length = 0
        then { s with events := s.events ++ [GEvent.addInfo] } else s)).lineToDecoration := rfl

theorem updateBlame_events_eq (B : List (Nat × BlameInfo)) (s : GutterState) :
    (updateBlame B s).events =
      (reconcile B (if B.length = 0
        then { s with events := s.events ++ [GEvent.addInfo] } else s)).events ++
        [GEvent.setWidthCh (longestBlame B)] := rfl

theorem addInfoStep_map (B : List (Nat × BlameInfo)) (s : GutterState) :
    ((if B.length = 0 then { s with events := s.events ++ [GEvent.addInfo] } else s) :
      GutterState).lineToDecoration = s.lineToDecoration := by
  split <;> rfl

theorem addInfoStep_createdLine (k : Nat) (B : List (Nat × BlameInfo)) (s : GutterState) :
    createdLine k ((if B.length = 0
        then { s with events := s.events ++ [GEvent.addInfo] } else s) :
      GutterState).events = createdLine k s.events := by
  split
  · simp [createdLine_append, createdLine]
  · rfl

theorem addInfoStep_destroy_mem (d : Nat) (B : List (Nat × BlameInfo)) (s : GutterState) :
    GEvent.destroyMarker d ∈ ((if B.length = 0
        then { s with events := s.events ++ [GEvent.addInfo] } else s) :
      GutterState).events ↔ GEvent.destroyMarker d ∈ s.events := by
  split
  · simp
  · exact Iff.rfl

theorem updateBlame_mapGet_ne_none {k : Nat} {B : List (Nat × BlameInfo)}
    {s : GutterState} :
    mapGet k (updateBlame B s).lineToDecoration ≠ none ↔ k ∈ B.map Prod.fst := by
  rw [updateBlame_map_eq]
  exact reconcile_mapGet_ne_none

theorem updateBlame_preserves {k d : Nat} {B : List (Nat × BlameInfo)}
    {s : GutterState} (hd : mapGet k s.lineToDecoration = some d)
    (hB : k ∈ B.map Prod.fst) :
    mapGet k (updateBlame B s).lineToDecoration = some d := by
  rw [updateBlame_map_eq]
  refine reconcile_preserves ?_ hB
  rw [addInfoStep_map]
  exact hd

theorem updateBlame_keys_nodup {B : List (Nat × BlameInfo)} {s : GutterState}
    (h : (s.lineToDecoration.map Prod.fst).Nodup) :
    ((updateBlame B s).lineToDecoration.map Prod.fst).Nodup := by
  rw [updateBlame_map_eq]
  refine reconcile_keys_nodup ?_
  rw [addInfoStep_map]
  exact h

theorem updateBlame_destroys {k d : Nat} {B : List (Nat × BlameInfo)}
    {s : GutterState} (hnd : (s.lineToDecoration.map Prod.fst).Nodup)
    (hd : mapGet k s.lineToDecoration = some d) (hB : k ∉ B.map Prod.fst) :
    GEvent.destroyMarker d ∈ (updateBlame B s).events := by
  rw [updateBlame_events_eq]
  apply List.mem_append_left
  refine reconcile_destroys ?_ ?_ hB
  · rw [addInfoStep_map]
    exact hnd
  · rw [addInfoStep_map]
    exact hd

theorem updateBlame_setProperties {k d : Nat} {B : List (Nat × BlameInfo)}
    {s : GutterState} (hk : k ∈ B.map Prod.fst)
    (hd : mapGet k s.lineToDecoration = some d) :
    GEvent.setProperties d ∈ (updateBlame B s).events := by
  rw [updateBlame_events_eq]
  apply List.mem_append_left
  unfold reconcile
  apply removeLoop_events_mono
  refine setLoop_setProperties hk ?_
  rw [addInfoStep_map]
  exact hd

theorem updateBlame_createdLine {k : Nat} {B : List (Nat × BlameInfo)}
    {s : GutterState} :
    createdLine k (updateBlame B s).events = true ↔
      createdLine k s.events = true ∨
        (k ∈ B.map Prod.fst ∧ mapGet k s.lineToDecoration = none) := by
  rw [updateBlame_events_eq, createdLine_append]
  have hw : createdLine k [GEvent.setWidthCh (longestBlame B)] = false := by
    simp [createdLine]
  rw [hw, Bool.or_false, reconcile_createdLine, addInfoStep_createdLine, addInfoStep_map]

theorem updateBlame_no_destroy_of_empty {d : Nat} {B : List (Nat × BlameInfo)}
    {s : GutterState} (hmap : s.lineToDecoration = [])
    (he : GEvent.destroyMarker d ∉ s.events) :
    GEvent.destroyMarker d ∉ (updateBlame B s).events := by
  rw [updateBlame_events_eq]
  intro hmem
  rcases List.mem_append.mp hmem with h | h
  · rw [reconcile_no_destroy_of_empty (by rw [addInfoStep_map]; exact hmap)] at h
    exact he ((addInfoStep_destroy_mem d B s).mp h)
  · simp at h

theorem updateBlame_nil_map_empty {s : GutterState} :
    (updateBlame [] s).lineToDecoration = [] := by
  apply map_eq_nil_of_mapGet_none
  intro k
  have h := updateBlame_mapGet_ne_none (k := k) (B := []) (s := s)
  simp only [List.map_nil, List.not_mem_nil, iff_false, ne_eq, not_not] at h
  exact h

theorem updateBlame_nil_countAddInfo {s : GutterState} :
    countAddInfo (updateBlame [] s).events = countAddInfo s.events + 1 := by
  rw [updateBlame_events_eq, countAddInfo_append, reconcile_countAddInfo]
  have h1 : countAddInfo [GEvent.setWidthCh (longestBlame [])] = 0 := by
    simp [countAddInfo]
  rw [h1]
  simp [countAddInfo_append, countAddInfo]

/-! ## Claim C1 -/

/-- C1: for consecutive snapshots S1 then S2 applied via `_updateBlame`,
after reconciling to S2 the line-decoration map's key set equals exactly
S2's key set; decorations for lines in both S1 and S2 keep the same
decoration identity; decorations for lines only in S1 are destroyed (a
fresh `marker.destroy` for their decoration) and their map entries removed;
and new decorations are created exactly for the lines only in S2. -/
theorem C1_reconciliation_exactness (S1 S2 : List (Nat × BlameInfo)) :
    (∀ line,
      mapGet line (updateBlame S2 (updateBlame S1 initialGutter)).lineToDecoration ≠ none ↔
        line ∈ S2.map Prod.fst) ∧
    (∀ line, line ∈ S1.map Prod.fst → line ∈ S2.map Prod.fst →
      mapGet line (updateBlame S2 (updateBlame S1 initialGutter)).lineToDecoration =
        mapGet line (updateBlame S1 initialGutter).lineToDecoration ∧
      ∃ d, mapGet line (updateBlame S1 initialGutter).lineToDecoration = some d ∧
        GEvent.setProperties d ∈ (updateBlame S2 (updateBlame S1 initialGutter)).events) ∧
    (∀ line, line ∈ S1.map Prod.fst → line ∉ S2.map Prod.fst →
      mapGet line (updateBlame S2 (updateBlame S1 initialGutter)).lineToDecoration = none ∧
      ∃ d, mapGet line (updateBlame S1 initialGutter).lineToDecoration = some d ∧
        GEvent.destroyMarker d ∈ (updateBlame S2 (updateBlame S1 initialGutter)).events ∧
        GEvent.destroyMarker d ∉ (updateBlame S1 initialGutter).events) ∧
    (∀ line,
      (createdLine line (updateBlame S2 (updateBlame S1 initialGutter)).events = true ∧
       createdLine line (updateBlame S1 initialGutter).events = false) ↔
        (line ∈ S2.map Prod.fst ∧ line ∉ S1.map Prod.fst)) := by
  have hinit : (initialGutter.lineToDecoration.map Prod.fst).Nodup := by
    simp [initialGutter]
  have hnd1 : ((updateBlame S1 initialGutter).lineToDecoration.map Prod.fst).Nodup :=
    updateBlame_keys_nodup hinit
  have hkeys1 : ∀ line,
      mapGet line (updateBlame S1 initialGutter).lineToDecoration ≠ none ↔
        line ∈ S1.map Prod.fst := fun line => updateBlame_mapGet_ne_none
  have hnone1 : ∀ line,
      mapGet line (updateBlame S1 initialGutter).lineToDecoration = none ↔
        line ∉ S1.map Prod.fst := by
    intro line
    rw [← hkeys1 line]
    exact not_not.symm
  have hmade1 : ∀ line,
      createdLine line (updateBlame S1 initialGutter).events = true ↔
        line ∈ S1.map Prod.fst := by
    intro line
    rw [updateBlame_createdLine]
    simp [initialGutter, createdLine, mapGet]
  have hnodes1 : ∀ d, GEvent.destroyMarker d ∉ (updateBlame S1 initialGutter).events := by
    intro d
    refine updateBlame_no_destroy_of_empty rfl ?_
    simp [initialGutter]
  refine ⟨fun line => updateBlame_mapGet_ne_none, ?_, ?_, ?_⟩
  · intro line h1 h2
    rcases hx : mapGet line (updateBlame S1 initialGutter).lineToDecoration with _ | d
    · exact absurd ((hnone1 line).mp hx) (not_not.mpr h1)
    · exact ⟨updateBlame_preserves hx h2, d, rfl, updateBlame_setProperties h2 hx⟩
  · intro line h1 h2
    rcases hx : mapGet line (updateBlame S1 initialGutter).lineToDecoration with _ | d
    · exact absurd ((hnone1 line).mp hx) (not_not.mpr h1)
    · refine ⟨?_, d, rfl, updateBlame_destroys hnd1 hx h2, hnodes1 d⟩
      have := (updateBlame_mapGet_ne_none
        (k := line) (B := S2) (s := updateBlame S1 initialGutter))
      rw [← this] at h2
      exact not_not.mp h2
  · intro line
    have e1 : createdLine line (updateBlame S2 (updateBlame S1 initialGutter)).events = true ↔
        line ∈ S1.map Prod.fst ∨ (line ∈ S2.map Prod.fst ∧ line ∉ S1.map Prod.fst) := by
      rw [updateBlame_createdLine, hmade1 line, hnone1 line]
    rw [e1, Bool.eq_false_iff, Ne, hmade1 line]
    tauto

/-- Witness for C1 at the concrete snapshots `S1ex = {0,1}`, `S2ex = {1,2}`:
line 1 keeps its decoration identity and line 0's entry is removed. -/
theorem C1_reconciliation_exactness_witness :
    (mapGet 1 (updateBlame S2ex (updateBlame S1ex initialGutter)).lineToDecoration =
      mapGet 1 (updateBlame S1ex initialGutter).lineToDecoration) ∧
    (mapGet 0 (updateBlame S2ex (updateBlame S1ex initialGutter)).lineToDecoration = none) :=
  ⟨((C1_reconciliation_exactness S1ex S2ex).2.1 1 (by decide) (by decide)).1,
   ((C1_reconciliation_exactness S1ex S2ex).2.2.1 0 (by decide) (by decide)).1⟩

/-! ## `_cleanUpLoadingSpinner` and `destroy` -/

theorem cleanUpLoadingSpinner_isDestroyed (s : GutterState) :
    (cleanUpLoadingSpinner s).isDestroyed = s.isDestroyed := by
  unfold cleanUpLoadingSpinner
  by_cases h1 : s.loadingSpinnerIsPending <;>
    by_cases h2 : s.loadingSpinnerDivPresent <;> simp [h1, h2]

theorem cleanUpLoadingSpinner_map (s : GutterState) :
    (cleanUpLoadingSpinner s).lineToDecoration = s.lineToDecoration := by
  unfold cleanUpLoadingSpinner
  by_cases h1 : s.loadingSpinnerIsPending <;>
    by_cases h2 : s.loadingSpinnerDivPresent <;> simp [h1, h2]

theorem cleanUpLoadingSpinner_events (s : GutterState) :
    (cleanUpLoadingSpinner s).events = s.events := by
  unfold cleanUpLoadingSpinner
  by_cases h1 : s.loadingSpinnerIsPending <;>
    by_cases h2 : s.loadingSpinnerDivPresent <;> simp [h1, h2]

theorem destroy_spec (ed : Bool) (s : GutterState) :
    (destroy ed s).isDestroyed = true ∧
    (destroy ed s).lineToDecoration = s.lineToDecoration ∧
    (destroy ed s).events =
      s.events ++ (if ed then [] else [GEvent.gutterDestroy]) ++
        s.lineToDecoration.map (fun p => GEvent.destroyMarker p.2) := by
  unfold destroy
  cases ed with
  | false =>
      simp [cleanUpLoadingSpinner_isDestroyed, cleanUpLoadingSpinner_map,
        cleanUpLoadingSpinner_events]
  | true =>
      simp [cleanUpLoadingSpinner_isDestroyed, cleanUpLoadingSpinner_map,
        cleanUpLoadingSpinner_events]

/-! ## Claim C4 -/

/-- C4: if `destroy()` runs before the pending attribution fetch resolves,
the fetch continuation performs no mutation at all — in particular no
line-decoration-map change and no gutter width update; the result is
discarded. -/
theorem C4_destroyed_fetch_is_noop (blame : List (Nat × BlameInfo)) (ed : Bool)
    (s : GutterState) :
    fetchContinuation blame (destroy ed s) = destroy ed s := by
  unfold fetchContinuation
  rw [(destroy_spec ed s).1]
  simp

/-! ## Claim C5 -/

/-- C5: over the entries `[{author:"alice",changeset:"abc123"},
{author:"bob",changeset:null}]` the maximum label width is
`len("alice")+len("abc123")+1 = 12`, the reconcile pass ends by setting the
gutter width to that many character units, and the width string is
`"12ch"`. -/
theorem C5_width_computation :
    longestBlame [(0, ⟨"alice", some "abc123"⟩), (1, ⟨"bob", none⟩)] = 12 ∧
    (updateBlame [(0, ⟨"alice", some "abc123"⟩), (1, ⟨"bob", none⟩)]
        initialGutter).events.getLast? = some (GEvent.setWidthCh 12) ∧
    chWidthString 12 = "12ch" := by
  refine ⟨by decide, ?_, by decide⟩
  decide

/-! ## Claim C6 (corrected) -/

/-- C6 counterexample: after rendering line 0, `destroy()` leaves the
line-decoration map non-empty — the map is never cleared. -/
theorem C6_map_not_cleared_cex :
    (destroy false (updateBlame S1ex initialGutter)).lineToDecoration ≠ [] := by
  decide

/-- C6 amended: `destroy()` destroys every remaining decoration's marker
(one `marker.destroy` call per map entry) but does not clear the
line-decoration map; the map still holds all of its entries afterwards. -/
theorem C6_destroys_markers_map_unchanged (ed : Bool) (s : GutterState) :
    (destroy ed s).lineToDecoration = s.lineToDecoration ∧
    (∀ p ∈ s.lineToDecoration, GEvent.destroyMarker p.2 ∈ (destroy ed s).events) := by
  refine ⟨(destroy_spec ed s).2.1, ?_⟩
  intro p hp
  rw [(destroy_spec ed s).2.2]
  exact List.mem_append_right _ (List.mem_map_of_mem _ hp)

/-- Witness for the amended C6: line 0's decoration (id 0) has its marker
destroyed by `destroy()`, and the map entry survives. -/
theorem C6_destroys_markers_map_unchanged_witness :
    (destroy false (updateBlame S1ex initialGutter)).lineToDecoration =
      (updateBlame S1ex initialGutter).lineToDecoration ∧
    GEvent.destroyMarker 0 ∈ (destroy false (updateBlame S1ex initialGutter)).events :=
  ⟨(C6_destroys_markers_map_unchanged false (updateBlame S1ex initialGutter)).1,
   (C6_destroys_markers_map_unchanged false (updateBlame S1ex initialGutter)).2
     (0, 0) (by decide)⟩

/-! ## Claim C7 -/

/-- C7: reconciling against an empty snapshot adds exactly one
informational notice, empties the line-decoration map, and destroys the
decoration of every previously rendered line. -/
theorem C7_empty_snapshot_notice (s : GutterState)
    (hnd : (s.lineToDecoration.map Prod.fst).Nodup) :
    (updateBlame [] s).lineToDecoration = [] ∧
    countAddInfo (updateBlame [] s).events = countAddInfo s.events + 1 ∧
    ∀ k d, mapGet k s.lineToDecoration = some d →
      GEvent.destroyMarker d ∈ (updateBlame [] s).events := by
  refine ⟨updateBlame_nil_map_empty, updateBlame_nil_countAddInfo, ?_⟩
  intro k d hd
  exact updateBlame_destroys hnd hd (by simp)

/-- Witness for C7 at the two-line state reached from `S1ex`. -/
theorem C7_empty_snapshot_notice_witness :
    (updateBlame [] (updateBlame S1ex initialGutter)).lineToDecoration = [] ∧
    countAddInfo (updateBlame [] (updateBlame S1ex initialGutter)).events =
      countAddInfo (updateBlame S1ex initialGutter).events + 1 ∧
    GEvent.destroyMarker 0 ∈ (updateBlame [] (updateBlame S1ex initialGutter)).events :=
  ⟨(C7_empty_snapshot_notice (updateBlame S1ex initialGutter) (by decide)).1,
   (C7_empty_snapshot_notice (updateBlame S1ex initialGutter) (by decide)).2.1,
   (C7_empty_snapshot_notice (updateBlame S1ex initialGutter) (by decide)).2.2
     0 0 (by decide)⟩

/-! ## Claim C9 (corrected) -/

/-- C9 counterexample: a second `destroy()` is observably different from
one `destroy()` — line 0's marker receives a second `destroy` call and the
gutter a second host `destroy`, because the map was never cleared. -/
theorem C9_second_destroy_not_noop_cex :
    destroy false (destroy false (updateBlame S1ex initialGutter)) ≠
      destroy false (updateBlame S1ex initialGutter) ∧
    countDestroyMarker 0
      ((destroy false (destroy false (updateBlame S1ex initialGutter))).events) = 2 ∧
    countDestroyMarker 0
      ((destroy false (updateBlame S1ex initialGutter)).events) = 1 ∧
    countGutterDestroy
      ((destroy false (destroy false (updateBlame S1ex initialGutter))).events) = 2 := by
  refine ⟨by decide, by decide, by decide, by decide⟩

/-- C9 amended: `dispose()` on the subscription manager is idempotent — a
second call changes nothing, and the event subscription is released exactly
once.  A second `destroy()` on the BlameGutter leaves the destroyed flag
and the decoration map unchanged but re-issues the gutter destruction and
every marker destruction to the host (duplicate release calls), because the
map is never cleared. -/
theorem C9_dispose_idempotent_destroy_reissues :
    (∀ m : DPB, dispose (dispose m) = dispose m) ∧
    (∀ (ed : Bool) (s : GutterState),
      (destroy ed (destroy ed s)).isDestroyed = (destroy ed s).isDestroyed ∧
      (destroy ed (destroy ed s)).lineToDecoration = (destroy ed s).lineToDecoration ∧
      (destroy ed (destroy ed s)).events =
        (destroy ed s).events ++ (if ed then [] else [GEvent.gutterDestroy]) ++
          s.lineToDecoration.map (fun p => GEvent.destroyMarker p.2)) := by
  constructor
  · intro m
    cases h : m.currentEventSubscription <;>
      simp [dispose, disposeEventSubscription, h]
  · intro ed s
    obtain ⟨h1, h2, h3⟩ := destroy_spec ed (destroy ed s)
    exact ⟨by rw [h1, (destroy_spec ed s).1], h2,
      by rw [h3, (destroy_spec ed s).2.1]⟩

/-! ## Claim C8 -/

/-- C8: when a gutter click carries a changeset but `getUrlForRevision`
resolves to no URL, the handler emits exactly one dismissible warning whose
text contains the changeset, performs no external navigation, and still
emits the tracking event with the editor's path and the absent URL. -/
theorem C8_click_without_url (c : String) (path : Option String)
    (hc : c.isEmpty = false) :
    onClick ⟨true, some c, none, path⟩ =
      [GEvent.addWarning ("No URL found for " ++ c ++ ".") true,
       GEvent.trackClick path none] ∧
    ∃ pre post, "No URL found for " ++ c ++ "." = pre ++ c ++ post := by
  refine ⟨?_, "No URL found for ", ".", rfl⟩
  simp [onClick, hc]

/-- Witness for C8 at changeset `"abc123"`. -/
theorem C8_click_without_url_witness :
    onClick ⟨true, some "abc123", none, some "/repo/file.js"⟩ =
      [GEvent.addWarning ("No URL found for " ++ "abc123" ++ ".") true,
       GEvent.trackClick (some "/repo/file.js") none] :=
  (C8_click_without_url "abc123" (some "/repo/file.js") (by decide)).1

/-! ## Claim C10 -/

theorem le_longestBlameFrom (l : List (Nat × BlameInfo)) :
    ∀ acc, acc ≤ longestBlameFrom acc l := by
  induction l with
  | nil => intro acc; exact Nat.le_refl acc
  | cons p rest ih =>
      intro acc
      rcases p with ⟨line, info⟩
      rw [longestBlameFrom]
      refine le_trans ?_ (ih _)
      split <;> omega

theorem blameLength_le_longestBlameFrom {l : List (Nat × BlameInfo)}
    {p : Nat × BlameInfo} (hp : p ∈ l) :
    ∀ acc, blameLength p.2 ≤ longestBlameFrom acc l := by
  induction l with
  | nil => cases hp
  | cons q rest ih =>
      intro acc
      rcases q with ⟨line, info⟩
      rw [longestBlameFrom]
      rcases List.mem_cons.mp hp with h | h
      · subst h
        dsimp only
        refine le_trans ?_ (le_longestBlameFrom rest _)
        split <;> omega
      · exact ih h _

/-- C10: for any snapshot and any of its entries with a (truthy) changeset,
the non-breaking-space padding count computed by `_createGutterItem` from
the snapshot's own `longestBlame` is at least 1, so `' '.repeat` never
receives a negative count and the changeset is separated from its author by
at least one space. -/
theorem C10_padding_at_least_one (blame : List (Nat × BlameInfo)) (line : Nat)
    (info : BlameInfo) (c : String) (hmem : (line, info) ∈ blame)
    (hc : info.changeset = some c) (hne : c.isEmpty = false) :
    1 ≤ gutterItemNumSpaces info (longestBlame blame) c := by
  have h := blameLength_le_longestBlameFrom hmem 0
  have hbl : blameLength info = info.author.length + (c.length + 1) := by
    simp [blameLength, hc, hne]
  rw [hbl] at h
  unfold gutterItemNumSpaces longestBlame
  omega

/-- Witness for C10 at the alice/abc123 entry. -/
theorem C10_padding_at_least_one_witness :
    1 ≤ gutterItemNumSpaces ⟨"alice", some "abc123"⟩
      (longestBlame [(0, ⟨"alice", some "abc123"⟩), (1, ⟨"bob", none⟩)]) "abc123" :=
  C10_padding_at_least_one [(0, ⟨"alice", some "abc123"⟩), (1, ⟨"bob", none⟩)]
    0 ⟨"alice", some "abc123"⟩ "abc123" (by decide) (by decide) (by decide)

/-! ## Claim C2 (corrected) -/

/-- C2 counterexample: two `onMessageUpdate` registrations on one channel
instance invoke the update "new subscriber" hook twice — the hook is not
invoked exactly once over the channel's lifetime. -/
theorem C2_hook_not_once_cex :
    countHookUpdate
      ((onMessageUpdate 1 (onMessageUpdate 0 (constructDPB false false))).events) = 2 ∧
    ¬ countHookUpdate
      ((onMessageUpdate 1 (onMessageUpdate 0 (constructDPB false false))).events) = 1 := by
  refine ⟨by decide, by decide⟩

/-- C2 amended: the "new subscriber" hook is invoked once per
registration — on every `onMessageUpdate` / `onMessageInvalidation` call,
immediately after the callback is registered on the emitter — so after `n`
registrations on a channel the hook has run `n` times. -/
theorem C2_hook_once_per_registration :
    (∀ (s : DPB) (cb : Nat),
      (onMessageUpdate cb s).events =
        s.events ++ [DEvent.registerUpdate cb, DEvent.hookUpdate cb] ∧
      (onMessageInvalidation cb s).events =
        s.events ++ [DEvent.registerInvalidate cb, DEvent.hookInvalidate cb]) ∧
    (∀ (cbs : List Nat) (s : DPB),
      countHookUpdate (applyUpdateRegs cbs s).events =
        countHookUpdate s.events + cbs.length) := by
  constructor
  · intro s cb
    exact ⟨rfl, rfl⟩
  · intro cbs
    induction cbs with
    | nil =>
        intro s
        simp [applyUpdateRegs]
    | cons cb rest ih =>
        intro s
        have hstep : applyUpdateRegs (cb :: rest) s =
            applyUpdateRegs rest (onMessageUpdate cb s) := rfl
        rw [hstep, ih]
        simp only [onMessageUpdate, countHookUpdate, List.countP_append,
          List.length_cons]
        simp [List.countP_cons]
        omega

/-! ## Claim C3 -/

theorem activeIdsAux_append (acc : List Nat) (xs ys : List DEvent) :
    activeIdsAux acc (xs ++ ys) = activeIdsAux (activeIdsAux acc xs) ys := by
  induction xs generalizing acc with
  | nil => rfl
  | cons e rest ih =>
      cases e <;> simp [activeIdsAux, ih]

theorem activeIds_append (xs ys : List DEvent) :
    activeIds (xs ++ ys) = activeIdsAux (activeIds xs) ys :=
  activeIdsAux_append [] xs ys

theorem boundedTake_append {es : List DEvent} {e : DEvent}
    (h : ∀ n, (activeIds (es.take n)).length ≤ 1)
    (hfull : (activeIds (es ++ [e])).length ≤ 1) :
    ∀ n, (activeIds ((es ++ [e]).take n)).length ≤ 1 := by
  intro n
  by_cases hn : n ≤ es.length
  · rw [List.take_append_eq_append_take]
    have h0 : n - es.length = 0 := by omega
    rw [h0]
    simp only [List.take_zero, List.append_nil]
    exact h n
  · have hall : (es ++ [e]).take n = es ++ [e] := by
      refine List.take_of_length_le ?_
      simp only [List.length_append, List.length_cons, List.length_nil]
      omega
    rw [hall]
    exact hfull

theorem subscribe_subInvariant {s : DPB} (b : Bool) (h : subInvariant s) :
    subInvariant (subscribeToTextEditorEvent b s) := by
  obtain ⟨hact, hbound⟩ := h
  cases hc : s.currentEventSubscription with
  | some id =>
      rw [hc] at hact
      have hev : (subscribeToTextEditorEvent b s).events =
          (s.events ++ [DEvent.disposeSub id]) ++
            [DEvent.createSub s.nextSubId (subTargetFor b s.allGrammarScopes)] := by
        simp [subscribeToTextEditorEvent, disposeEventSubscription, hc]
      have hd : activeIds (s.events ++ [DEvent.disposeSub id]) = [] := by
        rw [activeIds_append, hact]
        simp [activeIdsAux]
      have hfull : activeIds (subscribeToTextEditorEvent b s).events = [s.nextSubId] := by
        rw [hev, activeIds_append, hd]
        simp [activeIdsAux]
      constructor
      · have hcur : (subscribeToTextEditorEvent b s).currentEventSubscription =
            some s.nextSubId := by
          simp [subscribeToTextEditorEvent, disposeEventSubscription, hc]
        rw [hcur]
        exact hfull
      · rw [hev]
        refine boundedTake_append (boundedTake_append hbound ?_) ?_
        · rw [hd]
          simp
        · rw [← hev, hfull]
          simp
  | none =>
      rw [hc] at hact
      have hev : (subscribeToTextEditorEvent b s).events =
          s.events ++ [DEvent.createSub s.nextSubId (subTargetFor b s.allGrammarScopes)] := by
        simp [subscribeToTextEditorEvent, disposeEventSubscription, hc]
      have hfull : activeIds (subscribeToTextEditorEvent b s).events = [s.nextSubId] := by
        rw [hev, activeIds_append, hact]
        simp [activeIdsAux]
      constructor
      · have hcur : (subscribeToTextEditorEvent b s).currentEventSubscription =
            some s.nextSubId := by
          simp [subscribeToTextEditorEvent, disposeEventSubscription, hc]
        rw [hcur]
        exact hfull
      · rw [hev]
        refine boundedTake_append hbound ?_
        rw [← hev, hfull]
        simp

theorem constructDPB_subInvariant (ag fly : Bool) :
    subInvariant (constructDPB ag fly) := by
  refine subscribe_subInvariant fly ⟨?_, ?_⟩
  · simp [activeIds, activeIdsAux]
  · intro n
    simp [activeIds, activeIdsAux]

theorem applyModeCalls_subInvariant (bs : List Bool) {s : DPB}
    (h : subInvariant s) : subInvariant (applyModeCalls bs s) := by
  induction bs generalizing s with
  | nil => exact h
  | cons b rest ih => exact ih (subscribe_subInvariant b h)

theorem applyModeCalls_current_isSome (bs : List Bool) {s : DPB}
    (h : s.currentEventSubscription.isSome = true) :
    (applyModeCalls bs s).currentEventSubscription.isSome = true := by
  induction bs generalizing s with
  | nil => exact h
  | cons b rest ih =>
      refine ih ?_
      have : (setRunOnTheFly b s).currentEventSubscription =
          some (disposeEventSubscription s).nextSubId := rfl
      rw [this]
      rfl

/-- C3: after the constructor and any sequence of `setRunOnTheFly` calls,
exactly one dispatcher subscription is active (and it is the stored
handle); no prefix of the host-call trace ever holds two undisposed
subscriptions, so the previous subscription is always disposed before the
next is created; and each further `setRunOnTheFly` appends exactly a
dispose of the old handle followed by a create of the new one. -/
theorem C3_single_active_subscription (bs : List Bool) (ag fly : Bool) :
    (∃ id, (applyModeCalls bs (constructDPB ag fly)).currentEventSubscription = some id ∧
      activeIds (applyModeCalls bs (constructDPB ag fly)).events = [id]) ∧
    (∀ n, (activeIds ((applyModeCalls bs (constructDPB ag fly)).events.take n)).length ≤ 1) ∧
    (∀ b, ∃ old nid t,
      (setRunOnTheFly b (applyModeCalls bs (constructDPB ag fly))).events =
        (applyModeCalls bs (constructDPB ag fly)).events ++
          [DEvent.disposeSub old, DEvent.createSub nid t]) := by
  have hinv := applyModeCalls_subInvariant bs (constructDPB_subInvariant ag fly)
  have hsome := applyModeCalls_current_isSome bs
    (s := constructDPB ag fly) (by rfl)
  obtain ⟨id, hid⟩ := Option.isSome_iff_exists.mp hsome
  obtain ⟨hact, hbound⟩ := hinv
  rw [hid] at hact
  refine ⟨⟨id, hid, hact⟩, hbound, ?_⟩
  intro b
  refine ⟨id, (applyModeCalls bs (constructDPB ag fly)).nextSubId,
    subTargetFor b (applyModeCalls bs (constructDPB ag fly)).allGrammarScopes, ?_⟩
  simp [setRunOnTheFly, subscribeToTextEditorEvent, disposeEventSubscription, hid]

end Nuclide
